import Mathlib

/-!
Verification of the image-upload automation program (HPB style scraper +
GBP uploader).  The Python source is shallowly embedded: pure string
manipulation becomes Lean functions on `List Char`, and the browser-driven
flows become functions over an explicit environment record describing the
outcome of each awaited step (element wait succeeded / timed out / raised).
-/

namespace ImgAuto

/-- Boolean substring test on character lists: `containsSubstr s pat` is
`true` iff `pat` occurs contiguously inside `s`.  Models Python's
`pat in s` on strings. -/
def containsSubstr (s pat : List Char) : Bool :=
  match s with
  | [] => pat.isEmpty
  | _ :: t => pat.isPrefixOf s || containsSubstr t pat

theorem containsSubstr_iff_infix (s pat : List Char) :
    containsSubstr s pat = true ↔ pat <:+: s := by
  induction s with
  | nil =>
    simp [containsSubstr, List.isEmpty_iff]
  | cons a t ih =>
    simp only [containsSubstr, Bool.or_eq_true, List.isPrefixOf_iff_prefix, ih]
    constructor
    · rintro (h | h)
      · exact h.isInfix
      · exact h.trans (List.infix_cons (List.infix_refl t))
    · intro h
      rcases List.infix_cons_iff.mp h with h | h
      · exact Or.inl h
      · exact Or.inr h

theorem containsSubstr_eq_false_iff (s pat : List Char) :
    containsSubstr s pat = false ↔ ¬ pat <:+: s := by
  rw [← containsSubstr_iff_infix s pat]
  simp

end ImgAuto

namespace ImgAuto

/-- `GoogleAuthManager.is_logged_in` URL classification: the final URL is
treated as logged-in when it contains the account-management surface or
does not contain the generic sign-in flow path. -/
def is_logged_in_url (url : String) : Bool :=
  containsSubstr url.toList "myaccount.google.com".toList ||
  containsSubstr url.toList "accounts.google.com/ManageAccount".toList ||
  ! containsSubstr url.toList "accounts.google.com/ServiceLogin".toList

end ImgAuto

namespace ImgAuto

/-- Models `urllib.parse.urlsplit` followed by `urlunsplit` with the query
and fragment components replaced by the empty string: the URL truncated at
the first `?` or `#`. -/
def removeQueryFragment (s : List Char) : List Char :=
  s.takeWhile (fun c => !(c == '?' || c == '#'))

/-- `s.split(pat)[0]` for a non-empty separator `pat`: the part of `s`
strictly before the first occurrence of `pat` (all of `s` when `pat` does
not occur). -/
def splitFirst (pat : List Char) : List Char → List Char
  | [] => []
  | c :: rest =>
    if pat.isPrefixOf (c :: rest) then [] else c :: splitFirst pat rest

/-- The first two steps of `_get_cleaned_image_url`: drop the query string
and fragment, then, when the cleanup pattern is non-empty and occurs in the
result, cut everything from the pattern onward
(`cleaned_url.split(cleanup_pattern)[0]`). -/
def cleanStage1 (src pat : List Char) : List Char :=
  if pat ≠ [] ∧ containsSubstr (removeQueryFragment src) pat then
    splitFirst pat (removeQueryFragment src)
  else removeQueryFragment src

/-- `_get_cleaned_image_url(src, cleanup_pattern)` from `hpb_scraper.py`:
drop the query string and fragment, cut at the configured cleanup pattern
when present, then reject results that are not http(s) URLs or contain an
inline base64 data marker. -/
def get_cleaned_image_url (src pat : List Char) : Option (List Char) :=
  if src = [] then none
  else if !("http://".toList.isPrefixOf (cleanStage1 src pat)
            || "https://".toList.isPrefixOf (cleanStage1 src pat))
          || containsSubstr (cleanStage1 src pat) ";base64,".toList then none
  else some (cleanStage1 src pat)

theorem splitFirst_leading (pat s : List Char) : splitFirst pat s <+: s := by
  induction s with
  | nil => simp [splitFirst]
  | cons c rest ih =>
    by_cases h : pat.isPrefixOf (c :: rest)
    · simp [splitFirst, h]
    · simpa [splitFirst, h] using ih

theorem splitFirst_not_contains (pat s : List Char) (hpat : pat ≠ []) :
    containsSubstr (splitFirst pat s) pat = false := by
  induction s with
  | nil => simpa [splitFirst, containsSubstr, List.isEmpty_iff] using hpat
  | cons c rest ih =>
    by_cases h : pat.isPrefixOf (c :: rest)
    · simpa [splitFirst, h, containsSubstr, List.isEmpty_iff] using hpat
    · simp only [splitFirst, h, if_false, containsSubstr, Bool.or_eq_false_iff]
      refine ⟨?_, ih⟩
      by_contra hpre
      apply h
      rw [Bool.not_eq_false, List.isPrefixOf_iff_prefix] at hpre
      rw [List.isPrefixOf_iff_prefix]
      exact hpre.trans (List.cons_prefix_cons.mpr ⟨rfl, splitFirst_leading pat rest⟩)

theorem splitFirst_of_not_contains (pat s : List Char)
    (h : containsSubstr s pat = false) : splitFirst pat s = s := by
  induction s with
  | nil => simp [splitFirst]
  | cons c rest ih =>
    simp only [containsSubstr, Bool.or_eq_false_iff] at h
    simp [splitFirst, h.1, ih h.2]

theorem removeQueryFragment_leading (s : List Char) :
    removeQueryFragment s <+: s :=
  List.takeWhile_prefix _

theorem mem_removeQueryFragment (s : List Char) {c : Char}
    (h : c ∈ removeQueryFragment s) : c ≠ '?' ∧ c ≠ '#' := by
  have := List.mem_takeWhile_imp h
  simpa using this

theorem removeQueryFragment_of_clean (s : List Char)
    (h : ∀ c ∈ s, c ≠ '?' ∧ c ≠ '#') : removeQueryFragment s = s := by
  unfold removeQueryFragment
  rw [List.takeWhile_eq_self_iff]
  intro c hc
  simpa using h c hc

theorem cleanStage1_leading (src pat : List Char) : cleanStage1 src pat <+: src := by
  unfold cleanStage1
  split
  · exact (splitFirst_leading pat _).trans (removeQueryFragment_leading src)
  · exact removeQueryFragment_leading src

theorem cleanStage1_no_query (src pat : List Char) {c : Char}
    (h : c ∈ cleanStage1 src pat) : c ≠ '?' ∧ c ≠ '#' := by
  unfold cleanStage1 at h
  refine mem_removeQueryFragment src ?_
  split at h
  · exact (splitFirst_leading pat _).subset h
  · exact h

theorem cleanStage1_not_contains (src pat : List Char) (hpat : pat ≠ []) :
    containsSubstr (cleanStage1 src pat) pat = false := by
  unfold cleanStage1
  split
  · exact splitFirst_not_contains pat _ hpat
  · rename_i h
    rcases Bool.eq_false_or_eq_true (containsSubstr (removeQueryFragment src) pat) with hc | hc
    · exact absurd ⟨hpat, hc⟩ h
    · exact hc

theorem cleanStage1_fixed (r pat : List Char)
    (h1 : ∀ c ∈ r, c ≠ '?' ∧ c ≠ '#') (h2 : containsSubstr r pat = false) :
    cleanStage1 r pat = r := by
  unfold cleanStage1
  rw [removeQueryFragment_of_clean r h1]
  simp [h2]

theorem get_cleaned_image_url_eq_some (src pat r : List Char)
    (hr : get_cleaned_image_url src pat = some r) :
    r = cleanStage1 src pat ∧
    ("http://".toList.isPrefixOf r || "https://".toList.isPrefixOf r) = true ∧
    containsSubstr r ";base64,".toList = false := by
  unfold get_cleaned_image_url at hr
  split at hr
  · exact absurd hr (by simp)
  · split at hr
    · exact absurd hr (by simp)
    · rename_i hg
      obtain rfl : cleanStage1 src pat = r := by simpa using hr
      refine ⟨rfl, ?_, ?_⟩
      · rcases Bool.eq_false_or_eq_true
          ("http://".toList.isPrefixOf (cleanStage1 src pat)
            || "https://".toList.isPrefixOf (cleanStage1 src pat)) with h1 | h1
        · exact h1
        · exact absurd (by rw [h1]; rfl) hg
      · rcases Bool.eq_false_or_eq_true
          (containsSubstr (cleanStage1 src pat) ";base64,".toList) with h1 | h1
        · exact absurd (by rw [h1, Bool.or_true]) hg
        · exact h1

end ImgAuto

namespace ImgAuto

/-- The inner loop of `fetch_latest_style_images`: walk the (already
reversed) image elements of one page, clean each `src` attribute
(`None` when the attribute is absent), append first-seen cleaned URLs to
the accumulator, and break as soon as the accumulator reaches
`maxImages`. -/
def addImages (maxImages : Nat) (pat : List Char) :
    List (Option (List Char)) → List (List Char) → List (List Char)
  | [], acc => acc
  | e :: rest, acc =>
    match (match e with
           | none => none
           | some s => get_cleaned_image_url s pat) with
    | none => addImages maxImages pat rest acc
    | some url =>
      if url ∈ acc then addImages maxImages pat rest acc
      else
        if maxImages ≤ (acc ++ [url]).length then acc ++ [url]
        else addImages maxImages pat rest (acc ++ [url])

/-- The page walk of `fetch_latest_style_images` over the remaining page
numbers (descending).  `pageElems p` is the outcome of requesting and
parsing page `p`: `none` when the request failed (skip to the next page),
`some elems` the matched image elements.  A page with zero elements is
skipped with a warning unless it is page 1, in which case the whole
operation returns the empty list. -/
def fetchPages (maxImages : Nat) (pat : List Char)
    (pageElems : Nat → Option (List (Option (List Char)))) :
    List Nat → List (List Char) → List (List Char)
  | [], acc => acc
  | p :: rest, acc =>
    if maxImages ≤ acc.length then acc
    else
      match pageElems p with
      | none => fetchPages maxImages pat pageElems rest acc
      | some elems =>
        if elems.isEmpty then
          if p ≠ 1 then fetchPages maxImages pat pageElems rest acc
          else []
        else fetchPages maxImages pat pageElems rest
          (addImages maxImages pat elems.reverse acc)

/-- The page numbers `[n, n-1, ..., 1]` visited by the walk
(`range(max_page, 0, -1)`). -/
def descRange : Nat → List Nat
  | 0 => []
  | n + 1 => (n + 1) :: descRange n

/-- `fetch_latest_style_images` (core loop, after the selector/settings
lookups and `_get_style_page_info` resolved): walk pages `max_page` down
to `1`, collecting at most `maxImages` unique cleaned URLs. -/
def fetch_latest_style_images (maxImages : Nat) (pat : List Char)
    (pageElems : Nat → Option (List (Option (List Char)))) (maxPage : Nat) :
    List (List Char) :=
  fetchPages maxImages pat pageElems (descRange maxPage) []

theorem addImages_nodup (maxImages : Nat) (pat : List Char)
    (elems : List (Option (List Char))) (acc : List (List Char))
    (h : acc.Nodup) : (addImages maxImages pat elems acc).Nodup := by
  induction elems generalizing acc with
  | nil => simpa [addImages] using h
  | cons e rest ih =>
    unfold addImages
    cases hc : (match e with
                | none => none
                | some s => get_cleaned_image_url s pat) with
    | none => exact ih acc h
    | some url =>
      simp only
      by_cases hmem : url ∈ acc
      · simpa [hmem] using ih acc h
      · have hnd : (acc ++ [url]).Nodup := by
          simp [List.nodup_append, h, hmem]
        by_cases hlen : maxImages ≤ acc.length + 1
        · simpa [hmem, hlen] using hnd
        · simpa [hmem, hlen] using ih (acc ++ [url]) hnd

theorem addImages_length_le (maxImages : Nat) (pat : List Char)
    (elems : List (Option (List Char))) (acc : List (List Char))
    (h : acc.length < maxImages) :
    (addImages maxImages pat elems acc).length ≤ maxImages := by
  induction elems generalizing acc with
  | nil => simpa [addImages] using Nat.le_of_lt h
  | cons e rest ih =>
    unfold addImages
    cases hc : (match e with
                | none => none
                | some s => get_cleaned_image_url s pat) with
    | none => exact ih acc h
    | some url =>
      simp only
      by_cases hmem : url ∈ acc
      · simpa [hmem] using ih acc h
      · by_cases hcap : maxImages ≤ acc.length + 1
        · have hle : acc.length + 1 ≤ maxImages := by omega
          simpa [hmem, hcap] using hle
        · have hlt : (acc ++ [url]).length < maxImages := by
            simp only [List.length_append, List.length_singleton]
            omega
          simpa [hmem, hcap] using ih (acc ++ [url]) hlt

theorem fetchPages_nodup (maxImages : Nat) (pat : List Char)
    (pageElems : Nat → Option (List (Option (List Char))))
    (pages : List Nat) (acc : List (List Char)) (h : acc.Nodup) :
    (fetchPages maxImages pat pageElems pages acc).Nodup := by
  induction pages generalizing acc with
  | nil => simpa [fetchPages] using h
  | cons p rest ih =>
    unfold fetchPages
    by_cases hcap : maxImages ≤ acc.length
    · simpa [hcap] using h
    · simp only [hcap, if_false]
      cases pageElems p with
      | none => exact ih acc h
      | some elems =>
        simp only
        by_cases he : elems.isEmpty
        · by_cases hp : p ≠ 1
          · simpa [he, hp] using ih acc h
          · simp [he, hp]
        · simpa [he] using
            ih (addImages maxImages pat elems.reverse acc)
              (addImages_nodup maxImages pat elems.reverse acc h)

theorem fetchPages_length_le (maxImages : Nat) (pat : List Char)
    (pageElems : Nat → Option (List (Option (List Char))))
    (pages : List Nat) (acc : List (List Char))
    (h : acc.length ≤ maxImages) :
    (fetchPages maxImages pat pageElems pages acc).length ≤ maxImages := by
  induction pages generalizing acc with
  | nil => simpa [fetchPages] using h
  | cons p rest ih =>
    unfold fetchPages
    by_cases hcap : maxImages ≤ acc.length
    · simpa [hcap] using h
    · simp only [hcap, if_false]
      cases pageElems p with
      | none => exact ih acc h
      | some elems =>
        simp only
        by_cases he : elems.isEmpty
        · by_cases hp : p ≠ 1
          · simpa [he, hp] using ih acc h
          · simp [he, hp]
        · have hlt : acc.length < maxImages := by omega
          simpa [he] using
            ih (addImages maxImages pat elems.reverse acc)
              (addImages_length_le maxImages pat elems.reverse acc hlt)

end ImgAuto

/-- C7: for every sequence of image elements across multiple gallery
pages, the list returned by `fetch_latest_style_images` contains no
normalized URL twice, and its length never exceeds the configured
`max_images_to_fetch`. -/
theorem C7_fetch_nodup_and_capped (maxImages : Nat) (pat : List Char)
    (pageElems : Nat → Option (List (Option (List Char)))) (maxPage : Nat) :
    (ImgAuto.fetch_latest_style_images maxImages pat pageElems maxPage).Nodup ∧
    (ImgAuto.fetch_latest_style_images maxImages pat pageElems maxPage).length
      ≤ maxImages :=
  ⟨ImgAuto.fetchPages_nodup maxImages pat pageElems _ [] List.nodup_nil,
   ImgAuto.fetchPages_length_le maxImages pat pageElems _ []
     (Nat.zero_le maxImages)⟩

namespace ImgAuto

/-- Page data refuting C3 as stated: the walk starts at page 2
(`max_page`), which yields zero matched elements; page 1 yields one valid
image. -/
def pagesFirstEmpty : Nat → Option (List (Option (List Char))) :=
  fun p => if p = 2 then some [] else some [some "http://a".toList]

/-- Page data in which every page yields zero matched elements. -/
def pagesAllEmpty : Nat → Option (List (Option (List Char))) :=
  fun _ => some []

end ImgAuto

/-- C3 counterexample: with `max_page = 2`, the very first page processed
(page 2) yields zero matched elements, yet `fetch_latest_style_images`
does not fail with the empty list — it continues and returns the URL
collected from page 1.  Only a zero-element page numbered 1 aborts the
walk. -/
theorem C3_counterexample :
    ImgAuto.pagesFirstEmpty 2 = some [] ∧
    ImgAuto.fetch_latest_style_images 10 [] ImgAuto.pagesFirstEmpty 2 ≠ [] := by
  constructor
  · rfl
  · decide

/-- C3 amended: in the walk from `max_page` down to 1, a page numbered
other than 1 that yields zero matched elements is tolerated — the walk
continues with the collected URLs preserved; when the page numbered 1
(processed last) yields zero elements before the cap is reached, the whole
operation returns the empty list, discarding any URLs already
collected. -/
theorem C3_amended_empty_page_policy (maxImages : Nat) (pat : List Char)
    (pageElems : Nat → Option (List (Option (List Char)))) :
    (∀ p rest acc, p ≠ 1 → pageElems p = some [] → acc.length < maxImages →
      ImgAuto.fetchPages maxImages pat pageElems (p :: rest) acc =
        ImgAuto.fetchPages maxImages pat pageElems rest acc) ∧
    (∀ rest acc, pageElems 1 = some [] → acc.length < maxImages →
      ImgAuto.fetchPages maxImages pat pageElems (1 :: rest) acc = []) := by
  constructor
  · intro p rest acc hp hpe hlen
    conv_lhs => unfold ImgAuto.fetchPages
    rw [hpe]
    simp [Nat.not_le.mpr hlen, hp]
  · intro rest acc hpe hlen
    conv_lhs => unfold ImgAuto.fetchPages
    rw [hpe]
    simp [Nat.not_le.mpr hlen]

/-- Witness for the amended C3 at concrete inputs: a zero-element page 2
is skipped, while a zero-element page 1 returns the empty list. -/
theorem C3_amended_empty_page_policy_witness :
    ImgAuto.fetchPages 10 [] ImgAuto.pagesAllEmpty [2, 1] [] =
      ImgAuto.fetchPages 10 [] ImgAuto.pagesAllEmpty [1] [] ∧
    ImgAuto.fetchPages 10 [] ImgAuto.pagesAllEmpty [1] [] = [] :=
  ⟨(C3_amended_empty_page_policy 10 [] ImgAuto.pagesAllEmpty).1 2 [1] []
      (by decide) rfl (by decide),
   (C3_amended_empty_page_policy 10 [] ImgAuto.pagesAllEmpty).2 [] []
      rfl (by decide)⟩

namespace ImgAuto

/-- `dict.get(k)` on a JSON object of string values, modelled as an
association list. -/
def lookupKey (cfg : List (String × String)) (k : String) : Option String :=
  (cfg.find? (fun kv => kv.1 == k)).map (fun kv => kv.2)

/-- `dict.get(k)` on a JSON object whose values are nested objects. -/
def lookupGroup (cfg : List (String × List (String × String))) (k : String) :
    Option (List (String × String)) :=
  (cfg.find? (fun kv => kv.1 == k)).map (fun kv => kv.2)

/-- `get_salon_name`, with the HTTP fetch and CSS selection abstracted as
`page : Option (String → Option String)` (`none` when the request fails;
otherwise a map from a selector to the matched element's text).  The
selector lookup happens first: a missing `salon_name` key logs an error
and returns `None` — no default selector is consulted. -/
def get_salon_name (selectors : List (String × String))
    (page : Option (String → Option String)) : Option String :=
  match lookupKey selectors "salon_name" with
  | none => none
  | some sel =>
    match page with
    | none => none
    | some selText =>
      match selText sel with
      | none => none
      | some t => some t.trim

/-- The selector stage of `fetch_latest_style_images`: a missing
`style_image` key logs an error and returns the empty list; otherwise the
page walk runs on the elements matched by the configured selector
(`pagesOf sel`), with the cleanup pattern defaulting to the empty
string. -/
def fetch_latest_with_config (selectors : List (String × String))
    (maxImages : Nat)
    (pagesOf : String → Nat → Option (List (Option (List Char))))
    (maxPage : Nat) : List (List Char) :=
  match lookupKey selectors "style_image" with
  | none => []
  | some sel =>
    fetch_latest_style_images maxImages
      ((lookupKey selectors "image_url_cleanup_pattern").getD "").toList
      (pagesOf sel) maxPage

/-- The upload flow's selector read: `gbp_selectors.get('photo_upload')`
defaulting to the empty object, then `.get('add_button', default)`; a
missing group or key falls back to the hardcoded default selector. -/
def gbpAddPhotoSelector (gbp : List (String × List (String × String))) : String :=
  (lookupKey ((lookupGroup gbp "photo_upload").getD []) "add_button").getD
    "a:has-text(\"写真を追加\")"

end ImgAuto

/-- C9 counterexample: with a configuration missing the logical keys, the
scraper-side lookups do not degrade to any default selector: even against
a page on which every selector (hence any would-be default) matches,
`get_salon_name` returns `None` and `fetch_latest_style_images` returns
the empty list without running the walk. -/
theorem C9_counterexample :
    ImgAuto.get_salon_name [] (some (fun _ => some "Salon")) = none ∧
    (∀ sel : String, (fun _ => some "Salon") sel = some "Salon") ∧
    ImgAuto.fetch_latest_with_config [] 10
      (fun _ _ => some [some "http://a".toList]) 1 = [] ∧
    ImgAuto.fetch_latest_style_images 10 []
      ((fun (_ : String) (_ : Nat) => some [some "http://a".toList]) "img") 1
      ≠ [] := by
  refine ⟨rfl, fun _ => rfl, rfl, by decide⟩

/-- C9 amended: a missing logical selector key never raises out of the
caller, but only the GBP upload flow's reads degrade to a documented
default selector; `get_salon_name` returns `None` and
`fetch_latest_style_images` returns the empty list when their keys are
missing, consulting no default. -/
theorem C9_amended_missing_key_behaviour
    (selectors : List (String × String))
    (gbp : List (String × List (String × String)))
    (page : Option (String → Option String)) (maxImages : Nat)
    (pagesOf : String → Nat → Option (List (Option (List Char))))
    (maxPage : Nat)
    (h1 : ImgAuto.lookupKey selectors "salon_name" = none)
    (h2 : ImgAuto.lookupKey selectors "style_image" = none)
    (h3 : ImgAuto.lookupGroup gbp "photo_upload" = none) :
    ImgAuto.get_salon_name selectors page = none ∧
    ImgAuto.fetch_latest_with_config selectors maxImages pagesOf maxPage = [] ∧
    ImgAuto.gbpAddPhotoSelector gbp = "a:has-text(\"写真を追加\")" := by
  refine ⟨?_, ?_, ?_⟩
  · unfold ImgAuto.get_salon_name
    rw [h1]
  · unfold ImgAuto.fetch_latest_with_config
    rw [h2]
  · unfold ImgAuto.gbpAddPhotoSelector
    rw [h3]
    rfl

/-- Witness for the amended C9 on the empty configuration. -/
theorem C9_amended_missing_key_behaviour_witness :
    ImgAuto.get_salon_name [] none = none ∧
    ImgAuto.fetch_latest_with_config [] 10 (fun _ _ => some []) 1 = [] ∧
    ImgAuto.gbpAddPhotoSelector [] = "a:has-text(\"写真を追加\")" :=
  C9_amended_missing_key_behaviour [] [] none 10 (fun _ _ => some []) 1
    rfl rfl rfl

namespace ImgAuto

/-- Environment for `download_images`: whether the temp directory already
exists, whether `os.makedirs` would succeed, and, per URL index, whether
the fetch returned non-empty content and the file write succeeded
(`false` covers both the empty-response branch and a raised exception,
which the per-URL `try/except` logs and skips). -/
structure DownloadEnv where
  dirExists : Bool
  mkdirOk : Bool
  fetchOk : Nat → Bool

/-- The per-URL loop of `download_images` over the remaining URL indices:
returns the indices whose file was written (file naming is a deterministic
function of the index, abstracted here to the index itself) together with
the indices attempted. -/
def downloadLoop (fetchOk : Nat → Bool) : List Nat → List Nat × List Nat
  | [] => ([], [])
  | i :: rest =>
    let r := downloadLoop fetchOk rest
    if fetchOk i then (i :: r.1, i :: r.2) else (r.1, i :: r.2)

/-- `download_images`: when the temp directory does not exist and creating
it fails, return the empty list without attempting any download;
otherwise process every URL in order. -/
def download_images (env : DownloadEnv) (urls : List String) :
    List Nat × List Nat :=
  if env.dirExists then downloadLoop env.fetchOk (List.range urls.length)
  else if env.mkdirOk then downloadLoop env.fetchOk (List.range urls.length)
  else ([], [])

theorem downloadLoop_eq (fetchOk : Nat → Bool) (l : List Nat) :
    downloadLoop fetchOk l = (l.filter fetchOk, l) := by
  induction l with
  | nil => rfl
  | cons i rest ih =>
    by_cases h : fetchOk i
    · simp [downloadLoop, ih, h, List.filter_cons]
    · simp [downloadLoop, ih, h, List.filter_cons]

end ImgAuto

/-- C10: if the temp directory does not exist and its creation fails,
`download_images` returns the empty list with no download attempted; once
directory setup succeeds, every URL is processed — individual per-URL
failures never abort the batch — and the written files are exactly those
of the successful indices. -/
theorem C10_download_batch_policy (env : ImgAuto.DownloadEnv)
    (urls : List String) :
    (env.dirExists = false → env.mkdirOk = false →
      ImgAuto.download_images env urls = ([], [])) ∧
    (env.dirExists = true ∨ env.mkdirOk = true →
      (ImgAuto.download_images env urls).2 = List.range urls.length ∧
      (ImgAuto.download_images env urls).1 =
        (List.range urls.length).filter env.fetchOk) := by
  constructor
  · intro h1 h2
    simp [ImgAuto.download_images, h1, h2]
  · intro h
    rcases h with h | h
    · simp [ImgAuto.download_images, h, ImgAuto.downloadLoop_eq]
    · by_cases hd : env.dirExists
      · simp [ImgAuto.download_images, hd, ImgAuto.downloadLoop_eq]
      · simp [ImgAuto.download_images, hd, h, ImgAuto.downloadLoop_eq]

/-- Witness for C10: with three URLs, a failed directory creation returns
nothing, while a usable directory with the second fetch failing still
attempts all three URLs and returns the other two. -/
theorem C10_download_batch_policy_witness :
    ImgAuto.download_images ⟨false, false, fun _ => true⟩ ["a", "b", "c"]
      = ([], []) ∧
    (ImgAuto.download_images ⟨true, false, fun i => !(i == 1)⟩
        ["a", "b", "c"]).2 = List.range 3 ∧
    (ImgAuto.download_images ⟨true, false, fun i => !(i == 1)⟩
        ["a", "b", "c"]).1 = (List.range 3).filter (fun i => !(i == 1)) :=
  ⟨(C10_download_batch_policy ⟨false, false, fun _ => true⟩ ["a", "b", "c"]).1
      rfl rfl,
   (C10_download_batch_policy ⟨true, false, fun i => !(i == 1)⟩
      ["a", "b", "c"]).2 (Or.inl rfl)⟩

namespace ImgAuto

/-- Which of the three Playwright handles are non-`None` when `close()`
is called (all three are `None` after `__init__`; `start()` sets them one
by one, so a partial start leaves a suffix of them `None`). -/
structure PWHandles where
  context : Bool
  browser : Bool
  playwright : Bool

/-- Whether each teardown call would raise when executed. -/
structure CloseBehavior where
  contextRaises : Bool
  browserRaises : Bool
  playwrightRaises : Bool

/-- The three teardown actions of `PlaywrightManager.close()`. -/
inductive CloseStep
  | closeContext
  | closeBrowser
  | stopPlaywright
deriving DecidableEq

/-- One guarded teardown statement `if self.h: await self.h.close()` of
`close()`: skipped when the handle is `None`; when the call raises, the
exception propagates (there is no `try/except` in `close()`), so every
later statement is skipped. -/
def closeStep (present raises : Bool) (step : CloseStep)
    (acc : List CloseStep × Bool) : List CloseStep × Bool :=
  if acc.2 then acc
  else if present then
    (if raises then (acc.1, true) else (acc.1 ++ [step], false))
  else acc

/-- `PlaywrightManager.close()`: close the context, then the browser,
then stop the engine handle.  Returns the teardown actions that completed,
in order, and whether an exception escaped. -/
def PlaywrightManager.close (h : PWHandles) (b : CloseBehavior) :
    List CloseStep × Bool :=
  closeStep h.playwright b.playwrightRaises .stopPlaywright
    (closeStep h.browser b.browserRaises .closeBrowser
      (closeStep h.context b.contextRaises .closeContext ([], false)))

end ImgAuto

/-- C4 counterexample: with all three handles live, an exception raised
while closing the context escapes `close()` and neither the browser
process nor the engine handle is closed — the three steps are not
independently guarded against exceptions. -/
theorem C4_counterexample :
    ImgAuto.PlaywrightManager.close ⟨true, true, true⟩ ⟨true, false, false⟩
      = ([], true) ∧
    ImgAuto.CloseStep.closeBrowser ∉
      (ImgAuto.PlaywrightManager.close ⟨true, true, true⟩
        ⟨true, false, false⟩).1 ∧
    ImgAuto.CloseStep.stopPlaywright ∉
      (ImgAuto.PlaywrightManager.close ⟨true, true, true⟩
        ⟨true, false, false⟩).1 := by
  refine ⟨rfl, by decide, by decide⟩

/-- C4 amended: `close()` tears down context, browser and engine handle in
that order, with each step guarded by a `None` check, so calling it after
a partial `start()` is safe and closes exactly the live handles, in order,
with no exception — but the steps are not exception-isolated: when a
teardown call raises, the exception propagates and all later teardown
steps are skipped. -/
theorem C4_amended_close_behaviour (h : ImgAuto.PWHandles)
    (b : ImgAuto.CloseBehavior) :
    ((h.context = true → b.contextRaises = false) →
     (h.browser = true → b.browserRaises = false) →
     (h.playwright = true → b.playwrightRaises = false) →
      ImgAuto.PlaywrightManager.close h b =
        ((if h.context then [ImgAuto.CloseStep.closeContext] else []) ++
         (if h.browser then [ImgAuto.CloseStep.closeBrowser] else []) ++
         (if h.playwright then [ImgAuto.CloseStep.stopPlaywright] else []),
         false)) ∧
    (h.context = true → b.contextRaises = true →
      ImgAuto.PlaywrightManager.close h b = ([], true)) := by
  constructor
  · intro h1 h2 h3
    obtain ⟨x1, x2, x3⟩ := h
    obtain ⟨y1, y2, y3⟩ := b
    simp only at h1 h2 h3
    cases x1 <;> cases x2 <;> cases x3 <;> cases y1 <;> cases y2 <;> cases y3 <;>
      simp_all [ImgAuto.PlaywrightManager.close, ImgAuto.closeStep]
  · intro hc hr
    unfold ImgAuto.PlaywrightManager.close ImgAuto.closeStep
    rw [hc, hr]
    simp

/-- Witness for the amended C4: a partial start that only obtained the
engine handle is torn down safely, and a raising context close skips the
rest. -/
theorem C4_amended_close_behaviour_witness :
    ImgAuto.PlaywrightManager.close ⟨false, false, true⟩ ⟨false, false, false⟩
      = ([ImgAuto.CloseStep.stopPlaywright], false) ∧
    ImgAuto.PlaywrightManager.close ⟨true, true, true⟩ ⟨true, false, false⟩
      = ([], true) :=
  ⟨(C4_amended_close_behaviour ⟨false, false, true⟩ ⟨false, false, false⟩).1
      (fun hx => absurd hx (by decide)) (fun hx => absurd hx (by decide))
      (fun _ => rfl),
   (C4_amended_close_behaviour ⟨true, true, true⟩ ⟨true, false, false⟩).2
      rfl rfl⟩

namespace ImgAuto

/-- The two browser engine families `PlaywrightManager` can launch
(`browser_type` is `'chromium'` or `'firefox'`). -/
inductive Engine
  | chromium
  | firefox
deriving DecidableEq

/-- Environment for the login facade: whether a session started with the
given engine is already logged in, and whether the interactive login on
that engine would succeed. -/
structure LoginEnv where
  alreadyLoggedIn : Engine → Bool
  interactiveLogin : Engine → Bool

/-- `perform_google_login` on a context of the given engine: returns
`true` when already logged in, otherwise the interactive `login`
outcome. -/
def perform_google_login (env : LoginEnv) (e : Engine) : Bool :=
  if env.alreadyLoggedIn e then true else env.interactiveLogin e

/-- `login_to_google`: constructs a single
`PlaywrightManager(browser_type='chromium')`, starts it, runs
`perform_google_login` on its context, and returns that result.  Returns
the outcome together with the list of engines launched, in order. -/
def login_to_google (env : LoginEnv) : Bool × List Engine :=
  (perform_google_login env Engine.chromium, [Engine.chromium])

end ImgAuto

/-- C5 counterexample: in an environment where the login fails on the
chromium engine but would succeed on the firefox engine,
`login_to_google` returns failure having launched only chromium — there is
no retry with a secondary engine family. -/
theorem C5_counterexample :
    ImgAuto.login_to_google
        ⟨fun _ => false, fun e => e == ImgAuto.Engine.firefox⟩
      = (false, [ImgAuto.Engine.chromium]) ∧
    ImgAuto.perform_google_login
        ⟨fun _ => false, fun e => e == ImgAuto.Engine.firefox⟩
        ImgAuto.Engine.firefox = true := by
  exact ⟨rfl, rfl⟩

/-- C5 amended: `login_to_google` attempts the login with the chromium
engine only — it launches exactly one engine and returns true iff the
restored chromium session is already logged in or the interactive chromium
login succeeds; no secondary engine family is ever tried. -/
theorem C5_amended_single_engine_login (env : ImgAuto.LoginEnv) :
    (ImgAuto.login_to_google env).2 = [ImgAuto.Engine.chromium] ∧
    ((ImgAuto.login_to_google env).1 = true ↔
      (env.alreadyLoggedIn ImgAuto.Engine.chromium = true ∨
       env.interactiveLogin ImgAuto.Engine.chromium = true)) := by
  refine ⟨rfl, ?_⟩
  unfold ImgAuto.login_to_google ImgAuto.perform_google_login
  by_cases h : env.alreadyLoggedIn ImgAuto.Engine.chromium = true
  · simp [h]
  · simp [h]

namespace ImgAuto

/-- Outcome of one awaited Playwright step: the wait/click succeeded, the
wait raised `TimeoutError`, or it raised some other exception. -/
inductive StepOutcome
  | ok
  | timeout
  | err
deriving DecidableEq

/-- Log levels of the logger calls emitted along the modelled paths. -/
inductive LogLevel
  | debug
  | info
  | warning
  | error
deriving DecidableEq

/-- Observable events of `GBPUploader.upload_images`, in program order. -/
inductive UEvent
  | waitAddButton
  | addButtonMissing
  | savedErrorPage
  | addButtonClicked
  | waitUploadIframe
  | uploadIframeMissing
  | chooserArmed
  | setFiles (paths : List String)
  | iframeHiddenOk
  | iframeHiddenTimeout
  | chooserTimeoutErr
  | chooserOtherErr
deriving DecidableEq

/-- The level of the logger call associated with each event. -/
def uLevel : UEvent → LogLevel
  | .addButtonMissing => .warning
  | .uploadIframeMissing => .warning
  | .iframeHiddenTimeout => .warning
  | .chooserTimeoutErr => .error
  | .chooserOtherErr => .error
  | _ => .info

/-- Environment for `upload_images`: the outcome of each awaited step of
the flow on the supplied page. -/
structure UploadEnv where
  addButtonWait : StepOutcome
  iframeWait : StepOutcome
  fileChooser : StepOutcome
  iframeHiddenWait : StepOutcome

/-- `GBPUploader.upload_images` on a caller-supplied page: wait for the
add-photo control (60s, fatal on timeout), click it, wait for the
file-upload iframe (60s, fatal on timeout), arm the file chooser and click
the select control inside the iframe (fatal on timeout or error), supply
all image paths in one `set_files` call, then wait up to 120s for the
iframe to become hidden — a timeout there logs only a warning and the
function still returns `true`.  A non-timeout exception during the hidden
wait is caught by the surrounding chooser `except` clause and fails.
Returns the outcome with the event trace. -/
def upload_images (env : UploadEnv) (imagePaths : List String) :
    Bool × List UEvent :=
  match env.addButtonWait with
  | .timeout => (false, [.waitAddButton, .addButtonMissing, .savedErrorPage])
  | .err => (false, [.waitAddButton, .savedErrorPage])
  | .ok =>
    match env.iframeWait with
    | .timeout => (false, [.waitAddButton, .addButtonClicked,
        .waitUploadIframe, .uploadIframeMissing, .savedErrorPage])
    | .err => (false, [.waitAddButton, .addButtonClicked,
        .waitUploadIframe, .savedErrorPage])
    | .ok =>
      match env.fileChooser with
      | .timeout => (false, [.waitAddButton, .addButtonClicked,
          .waitUploadIframe, .chooserArmed, .chooserTimeoutErr,
          .savedErrorPage])
      | .err => (false, [.waitAddButton, .addButtonClicked,
          .waitUploadIframe, .chooserArmed, .chooserOtherErr,
          .savedErrorPage])
      | .ok =>
        match env.iframeHiddenWait with
        | .ok => (true, [.waitAddButton, .addButtonClicked,
            .waitUploadIframe, .chooserArmed, .setFiles imagePaths,
            .iframeHiddenOk])
        | .timeout => (true, [.waitAddButton, .addButtonClicked,
            .waitUploadIframe, .chooserArmed, .setFiles imagePaths,
            .iframeHiddenTimeout])
        | .err => (false, [.waitAddButton, .addButtonClicked,
            .waitUploadIframe, .chooserArmed, .setFiles imagePaths,
            .chooserOtherErr, .savedErrorPage])

/-- Recognizer for `setFiles` events. -/
def isSetFiles : UEvent → Bool
  | .setFiles _ => true
  | _ => false

end ImgAuto

/-- C1: when the file chooser is successfully armed and the image paths
are supplied in one `set_files` call, a timeout of the subsequent wait for
the upload iframe to become hidden still yields `true` (success); the
timeout is logged as a warning and no error-level log is emitted on that
path. -/
theorem C1_upload_success_despite_hidden_timeout (env : ImgAuto.UploadEnv)
    (paths : List String)
    (h1 : env.addButtonWait = ImgAuto.StepOutcome.ok)
    (h2 : env.iframeWait = ImgAuto.StepOutcome.ok)
    (h3 : env.fileChooser = ImgAuto.StepOutcome.ok)
    (h4 : env.iframeHiddenWait = ImgAuto.StepOutcome.timeout) :
    (ImgAuto.upload_images env paths).1 = true ∧
    (ImgAuto.upload_images env paths).2.filter ImgAuto.isSetFiles
      = [ImgAuto.UEvent.setFiles paths] ∧
    ImgAuto.UEvent.iframeHiddenTimeout ∈ (ImgAuto.upload_images env paths).2 ∧
    ImgAuto.uLevel ImgAuto.UEvent.iframeHiddenTimeout = ImgAuto.LogLevel.warning ∧
    ∀ e ∈ (ImgAuto.upload_images env paths).2,
      ImgAuto.uLevel e ≠ ImgAuto.LogLevel.error := by
  obtain ⟨a, b, c, d⟩ := env
  simp only at h1 h2 h3 h4
  subst h1; subst h2; subst h3; subst h4
  refine ⟨rfl, rfl, by simp [ImgAuto.upload_images], rfl, ?_⟩
  intro e he
  simp only [ImgAuto.upload_images, List.mem_cons, List.mem_singleton,
    List.not_mem_nil, or_false] at he
  rcases he with rfl | rfl | rfl | rfl | rfl | rfl <;> simp [ImgAuto.uLevel]

/-- Witness for C1 at a concrete environment and path list. -/
theorem C1_upload_success_despite_hidden_timeout_witness :
    (ImgAuto.upload_images
        ⟨ImgAuto.StepOutcome.ok, ImgAuto.StepOutcome.ok,
         ImgAuto.StepOutcome.ok, ImgAuto.StepOutcome.timeout⟩ ["img1.jpg"]).1
      = true ∧
    (ImgAuto.upload_images
        ⟨ImgAuto.StepOutcome.ok, ImgAuto.StepOutcome.ok,
         ImgAuto.StepOutcome.ok, ImgAuto.StepOutcome.timeout⟩
        ["img1.jpg"]).2.filter ImgAuto.isSetFiles
      = [ImgAuto.UEvent.setFiles ["img1.jpg"]] ∧
    ImgAuto.UEvent.iframeHiddenTimeout ∈
      (ImgAuto.upload_images
        ⟨ImgAuto.StepOutcome.ok, ImgAuto.StepOutcome.ok,
         ImgAuto.StepOutcome.ok, ImgAuto.StepOutcome.timeout⟩
        ["img1.jpg"]).2 ∧
    ImgAuto.uLevel ImgAuto.UEvent.iframeHiddenTimeout
      = ImgAuto.LogLevel.warning ∧
    ∀ e ∈ (ImgAuto.upload_images
        ⟨ImgAuto.StepOutcome.ok, ImgAuto.StepOutcome.ok,
         ImgAuto.StepOutcome.ok, ImgAuto.StepOutcome.timeout⟩
        ["img1.jpg"]).2,
      ImgAuto.uLevel e ≠ ImgAuto.LogLevel.error :=
  C1_upload_success_despite_hidden_timeout
    ⟨ImgAuto.StepOutcome.ok, ImgAuto.StepOutcome.ok,
     ImgAuto.StepOutcome.ok, ImgAuto.StepOutcome.timeout⟩ ["img1.jpg"]
    rfl rfl rfl rfl

namespace ImgAuto

/-- Environment for `_async_upload_logic`: the login-state probe result,
the outcomes of the two short (1s) visibility probes, the outcome of the
owner-confirmation sub-flow when it runs, and the step outcomes of the
subsequent `upload_images` call on the same page. -/
structure OrchEnv where
  loggedIn : Bool
  ownerProbe : StepOutcome
  addPhotoProbe : StepOutcome
  ownerFlow : StepOutcome
  upEnv : UploadEnv

/-- Observable events of `_async_upload_logic`, in program order. -/
inductive OEvent
  | loginChecked
  | abortNotLoggedIn
  | gotoGbpUrl
  | ownerProbeStart
  | ownerFound
  | ownerNotFound
  | ownerProbeWarn
  | addPhotoProbeStart
  | addPhotoFound
  | addPhotoNotFound
  | addPhotoProbeWarn
  | ownerStepRun
  | ownerStepWarn
  | skipOwnerCheck
  | bothMissingWarn
  | uploadStep (e : UEvent)
  | storageSaved
deriving DecidableEq

/-- The level of the logger call associated with each event. -/
def oLevel : OEvent → LogLevel
  | .abortNotLoggedIn => .warning
  | .ownerProbeWarn => .warning
  | .addPhotoProbeWarn => .warning
  | .ownerStepWarn => .warning
  | .bothMissingWarn => .warning
  | .uploadStep e => uLevel e
  | _ => .info

/-- The probe stage of `_async_upload_logic` (step 2.5): a 1s visibility
probe for the owner-confirmation control, and — only when that is not
visible — a 1s probe for the add-photo control.  Probe exceptions other
than `TimeoutError` are caught with a warning and leave the flag false.
Returns `(owner_check_visible, add_photo_visible, events)`. -/
def probeStage (env : OrchEnv) : Bool × Bool × List OEvent :=
  match env.ownerProbe with
  | .ok => (true, false, [.ownerProbeStart, .ownerFound])
  | o1 =>
    let ev1 := match o1 with
      | .timeout => [OEvent.ownerProbeStart, OEvent.ownerNotFound]
      | _ => [OEvent.ownerProbeStart, OEvent.ownerProbeWarn]
    match env.addPhotoProbe with
    | .ok => (false, true, ev1 ++ [.addPhotoProbeStart, .addPhotoFound])
    | .timeout =>
        (false, false, ev1 ++ [.addPhotoProbeStart, .addPhotoNotFound])
    | .err =>
        (false, false, ev1 ++ [.addPhotoProbeStart, .addPhotoProbeWarn])

/-- `_async_upload_logic`: check login on the shared page (abort with
`false` when not logged in), navigate to the GBP URL, run the probe stage,
then either run the owner-confirmation sub-flow (whose own timeouts and
errors are caught with warnings and never abort), skip it, or — when
neither control was found — log a warning and proceed anyway; finally run
`upload_images` on the same page and save the storage state on success. -/
def async_upload_logic (env : OrchEnv) (paths : List String) :
    Bool × List OEvent :=
  if env.loggedIn then
    let pr := probeStage env
    let branchEvents :=
      if pr.1 then
        OEvent.ownerStepRun ::
          (if env.ownerFlow = StepOutcome.ok then [] else [OEvent.ownerStepWarn])
      else if pr.2.1 then [OEvent.skipOwnerCheck]
      else [OEvent.bothMissingWarn]
    let up := upload_images env.upEnv paths
    (up.1,
     OEvent.loginChecked :: OEvent.gotoGbpUrl :: pr.2.2 ++ branchEvents
       ++ up.2.map OEvent.uploadStep
       ++ (if up.1 then [OEvent.storageSaved] else []))
  else (false, [.loginChecked, .abortNotLoggedIn])

theorem waitAddButton_mem (upEnv : UploadEnv) (paths : List String) :
    UEvent.waitAddButton ∈ (upload_images upEnv paths).2 := by
  obtain ⟨a, b, c, d⟩ := upEnv
  cases a <;> cases b <;> cases c <;> cases d <;> simp [upload_images]

end ImgAuto

/-- C2: in the single-page upload flow, when both the 1s
owner-confirmation probe and the 1s add-photo probe time out, the flow
logs a warning and still proceeds to the upload step — it reaches the 60s
add-photo wait inside `upload_images` and returns that call's result
rather than failing at the probe stage. -/
theorem C2_probe_miss_proceeds_to_upload (env : ImgAuto.OrchEnv)
    (paths : List String)
    (hl : env.loggedIn = true)
    (ho : env.ownerProbe = ImgAuto.StepOutcome.timeout)
    (ha : env.addPhotoProbe = ImgAuto.StepOutcome.timeout) :
    (ImgAuto.async_upload_logic env paths).1
      = (ImgAuto.upload_images env.upEnv paths).1 ∧
    ImgAuto.OEvent.bothMissingWarn ∈ (ImgAuto.async_upload_logic env paths).2 ∧
    ImgAuto.oLevel ImgAuto.OEvent.bothMissingWarn = ImgAuto.LogLevel.warning ∧
    ImgAuto.OEvent.uploadStep ImgAuto.UEvent.waitAddButton ∈
      (ImgAuto.async_upload_logic env paths).2 := by
  obtain ⟨l, op, ap, ofl, ue⟩ := env
  simp only at hl ho ha
  subst hl; subst ho; subst ha
  refine ⟨?_, ?_, rfl, ?_⟩
  · simp [ImgAuto.async_upload_logic, ImgAuto.probeStage]
  · simp [ImgAuto.async_upload_logic, ImgAuto.probeStage]
  · have hm := ImgAuto.waitAddButton_mem ue paths
    simp [ImgAuto.async_upload_logic, ImgAuto.probeStage, hm]

/-- Witness for C2 at a concrete environment in which the upload step then
succeeds. -/
theorem C2_probe_miss_proceeds_to_upload_witness :
    (ImgAuto.async_upload_logic
        ⟨true, ImgAuto.StepOutcome.timeout, ImgAuto.StepOutcome.timeout,
         ImgAuto.StepOutcome.ok,
         ⟨ImgAuto.StepOutcome.ok, ImgAuto.StepOutcome.ok,
          ImgAuto.StepOutcome.ok, ImgAuto.StepOutcome.ok⟩⟩ ["img1.jpg"]).1
      = (ImgAuto.upload_images
          ⟨ImgAuto.StepOutcome.ok, ImgAuto.StepOutcome.ok,
           ImgAuto.StepOutcome.ok, ImgAuto.StepOutcome.ok⟩ ["img1.jpg"]).1 ∧
    ImgAuto.OEvent.bothMissingWarn ∈
      (ImgAuto.async_upload_logic
        ⟨true, ImgAuto.StepOutcome.timeout, ImgAuto.StepOutcome.timeout,
         ImgAuto.StepOutcome.ok,
         ⟨ImgAuto.StepOutcome.ok, ImgAuto.StepOutcome.ok,
          ImgAuto.StepOutcome.ok, ImgAuto.StepOutcome.ok⟩⟩ ["img1.jpg"]).2 ∧
    ImgAuto.oLevel ImgAuto.OEvent.bothMissingWarn
      = ImgAuto.LogLevel.warning ∧
    ImgAuto.OEvent.uploadStep ImgAuto.UEvent.waitAddButton ∈
      (ImgAuto.async_upload_logic
        ⟨true, ImgAuto.StepOutcome.timeout, ImgAuto.StepOutcome.timeout,
         ImgAuto.StepOutcome.ok,
         ⟨ImgAuto.StepOutcome.ok, ImgAuto.StepOutcome.ok,
          ImgAuto.StepOutcome.ok, ImgAuto.StepOutcome.ok⟩⟩ ["img1.jpg"]).2 :=
  C2_probe_miss_proceeds_to_upload
    ⟨true, ImgAuto.StepOutcome.timeout, ImgAuto.StepOutcome.timeout,
     ImgAuto.StepOutcome.ok,
     ⟨ImgAuto.StepOutcome.ok, ImgAuto.StepOutcome.ok,
      ImgAuto.StepOutcome.ok, ImgAuto.StepOutcome.ok⟩⟩ ["img1.jpg"]
    rfl rfl rfl

/-- C8: for any URL that contains a query string and in which the non-empty
configured cleanup substring is present, any successful result of
`_get_cleaned_image_url` is a prefix of the input containing neither the
query part (no `?` remains) nor the cleanup substring, and cleaning is
idempotent: applying the function to its own non-null output returns that
output unchanged. -/
theorem C8_url_cleaning_idempotent (src pat r : List Char)
    (hpat : pat ≠ []) (_hq : '?' ∈ src) (_hp : ImgAuto.containsSubstr src pat = true)
    (hr : ImgAuto.get_cleaned_image_url src pat = some r) :
    r <+: src ∧ '?' ∉ r ∧ ImgAuto.containsSubstr r pat = false ∧
    ImgAuto.get_cleaned_image_url r pat = some r := by
  obtain ⟨hre, hhttp, hb64⟩ := ImgAuto.get_cleaned_image_url_eq_some src pat r hr
  subst hre
  have hnq : ∀ c ∈ ImgAuto.cleanStage1 src pat, c ≠ '?' ∧ c ≠ '#' :=
    fun c hc => ImgAuto.cleanStage1_no_query src pat hc
  have hnc := ImgAuto.cleanStage1_not_contains src pat hpat
  refine ⟨ImgAuto.cleanStage1_leading src pat, fun hmem => (hnq _ hmem).1 rfl, hnc, ?_⟩
  have hrne : ImgAuto.cleanStage1 src pat ≠ [] := by
    intro h0
    rw [h0] at hhttp
    exact absurd hhttp (by decide)
  have hfix := ImgAuto.cleanStage1_fixed (ImgAuto.cleanStage1 src pat) pat hnq hnc
  unfold ImgAuto.get_cleaned_image_url
  rw [if_neg hrne, hfix, hhttp, hb64]
  simp

/-- Witness for C8 at a concrete URL: cleaning
`http://aZb?c` with cleanup pattern `Z` yields `http://a`. -/
theorem C8_url_cleaning_idempotent_witness :
    ImgAuto.get_cleaned_image_url "http://aZb?c".toList "Z".toList
        = some "http://a".toList ∧
    ("http://a".toList <+: "http://aZb?c".toList ∧ '?' ∉ "http://a".toList ∧
     ImgAuto.containsSubstr "http://a".toList "Z".toList = false ∧
     ImgAuto.get_cleaned_image_url "http://a".toList "Z".toList
        = some "http://a".toList) :=
  ⟨by decide,
   C8_url_cleaning_idempotent "http://aZb?c".toList "Z".toList "http://a".toList
     (by decide) (by decide) (by decide) (by decide)⟩

/-- C6: for every URL the probed page ends on, `is_logged_in` classifies it
as logged-in iff the URL contains `myaccount.google.com` or
`accounts.google.com/ManageAccount`, or does not contain
`accounts.google.com/ServiceLogin`; in particular any URL that is not
explicitly the sign-in challenge screen counts as logged in. -/
theorem C6_is_logged_in_url_classification (url : String) :
    ImgAuto.is_logged_in_url url = true ↔
      ("myaccount.google.com".toList <:+: url.toList ∨
       "accounts.google.com/ManageAccount".toList <:+: url.toList ∨
       ¬ "accounts.google.com/ServiceLogin".toList <:+: url.toList) := by
  unfold ImgAuto.is_logged_in_url
  simp [ImgAuto.containsSubstr_iff_infix, ImgAuto.containsSubstr_eq_false_iff, or_assoc]
